import Mathlib

/-!
# Verification of the `Simulate_Portfolio` environment (StockPred)

Shallow embedding of `Reinfocement_Learning/enviroment.py`, class
`Simulate_Portfolio`. Python floats are modelled as rationals, datetimes as
day counts (`Nat`), and pandas series as association lists. An operation
that mutates `self` and may raise is modelled as a function returning
`PyResult`: `.ok s` for normal return, `.exn s` for an exception raised
with the object left in state `s` (Python mutations made before the raise
survive). The unbounded `while True` search of `get_current_timestep_sim`
is modelled with an explicit fuel parameter; returning `none` at every
fuel level corresponds to the loop never terminating.
-/

/-- Association-list lookup mirroring Python `d[k]` read access:
`some v` when the key is present, `none` for a `KeyError`. -/
def alookup {κ α : Type} [DecidableEq κ] (k : κ) : List (κ × α) → Option α
  | [] => none
  | (k', v) :: l => if k' = k then some v else alookup k l

/-- Association-list write mirroring Python `d[k] = v`: replaces the value
at an existing key in place, otherwise appends (insertion order kept). -/
def dictInsert {κ α : Type} [DecidableEq κ] (k : κ) (v : α) :
    List (κ × α) → List (κ × α)
  | [] => [(k, v)]
  | (k', v') :: l => if k' = k then (k, v) :: l else (k', v') :: dictInsert k v l

/-- `d[k] = v` for a dict whose values we do not track (the
`name -> yf.Ticker(name)` map: the value is determined by the key). -/
def insertName (k : String) (l : List String) : List String :=
  if k ∈ l then l else l ++ [k]

/-- Result of a Python method call on a mutable object: `.ok s` is a normal
return with the object in state `s`; `.exn s` is an exception raised with
the object left in state `s`. -/
inductive PyResult (σ : Type) : Type where
  | ok : σ → PyResult σ
  | exn : σ → PyResult σ
deriving DecidableEq, Repr

/-- The external price source (`yf.Ticker(...).history(...)` calls made by
`Simulate_Portfolio`). `lookback name d` is
`history(start=d - 1 day, end=d, interval='1d')['Close'].iloc[-1]`:
`none` when the window is empty (then `.iloc[-1]` raises). `forward name d`
is the cached series `history(start=d, end=now, interval='1d')['Close']`,
an association list from day to close price. -/
structure PriceProvider : Type where
  lookback : String → Nat → Option ℚ
  forward : String → Nat → List (Nat × ℚ)

/-- State of a `Simulate_Portfolio` instance: the fields set in `__init__`
(the field name `init_balane` keeps the source's spelling). -/
structure Simulate_Portfolio : Type where
  investments_timesteps : List (String × List ℚ)
  investments_future_steps : List (String × List (Nat × ℚ))
  investments : List String
  investments_states : List (String × (ℚ × ℚ))
  datetime : Nat
  init_date : Nat
  timestep : Nat
  balance : ℚ
  init_balane : ℚ
deriving DecidableEq, Repr

namespace Simulate_Portfolio

/-- `__init__(self, init_datetime, balance=1000.0)`. -/
def init (init_datetime : Nat) (balance : ℚ) : Simulate_Portfolio :=
  { investments_timesteps := []
    investments_future_steps := []
    investments := []
    investments_states := []
    datetime := init_datetime
    init_date := init_datetime
    timestep := 0
    balance := balance
    init_balane := balance }

/-- `add_investment(self, name)`: registers the ticker, then fetches the
seed close (raising when the lookback window is empty), then caches the
forward series and seeds the state `[seed_price, 0]`. The ticker
registration happens before the fallible fetch, exactly as in the source. -/
def add_investment (P : PriceProvider) (name : String)
    (s : Simulate_Portfolio) : PyResult Simulate_Portfolio :=
  let s1 := { s with investments := insertName name s.investments }
  match P.lookback name s1.datetime with
  | none => .exn s1
  | some seed =>
    let s2 := { s1 with
      investments_timesteps := dictInsert name [seed] s1.investments_timesteps }
    let s3 := { s2 with
      investments_future_steps :=
        dictInsert name (P.forward name s1.datetime) s2.investments_future_steps }
    .ok { s3 with
      investments_states := dictInsert name (seed, 0) s3.investments_states }

/-- The `while True` search of `get_current_timestep_sim`: look the current
day up in the cached series; on a `KeyError` advance one day and retry.
The source loop is unbounded; `fuel` counts the remaining attempts we are
willing to unfold, and `none` for every fuel means the loop never ends. -/
def findObs (df : List (Nat × ℚ)) : Nat → Nat → Option (ℚ × Nat)
  | 0, _ => none
  | fuel + 1, dtime =>
    match alookup dtime df with
    | some val => some (val, dtime)
    | none => findObs df fuel (dtime + 1)

/-- The loop body of `next_timestep` over the remaining asset names:
look up the previous state and cached series, search forward for the next
observation, snap the clock to its date, append the close to the asset's
timestep log, and rebase the state by
`timestep * previous_state / previous_state[0]` (numpy elementwise). -/
def nextGo (fuel : Nat) : List String → Simulate_Portfolio →
    PyResult Simulate_Portfolio
  | [], s => .ok s
  | name :: rest, s =>
    match alookup name s.investments_states with
    | none => .exn s
    | some prev =>
      match alookup name s.investments_future_steps with
      | none => .exn s
      | some df =>
        match findObs df fuel s.datetime with
        | none => .exn s
        | some (ts, date) =>
          let s1 := { s with datetime := date }
          match alookup name s1.investments_timesteps with
          | none => .exn s1
          | some lst =>
            let s2 := { s1 with
              investments_timesteps :=
                dictInsert name (lst ++ [ts]) s1.investments_timesteps }
            let s3 := { s2 with
              investments_states :=
                dictInsert name (ts * prev.1 / prev.1, ts * prev.2 / prev.1)
                  s2.investments_states }
            nextGo fuel rest s3

/-- `next_timestep(self)`: advance the clock one day, then process every
registered asset in insertion order. -/
def next_timestep (fuel : Nat) (s : Simulate_Portfolio) :
    PyResult Simulate_Portfolio :=
  nextGo fuel s.investments { s with datetime := s.datetime + 1 }

/-- `n` consecutive `next_timestep` calls, stopping at the first raise. -/
def next_steps (fuel : Nat) : Nat → Simulate_Portfolio →
    PyResult Simulate_Portfolio
  | 0, s => .ok s
  | n + 1, s =>
    match next_timestep fuel s with
    | .ok s' => next_steps fuel n s'
    | .exn e => .exn e

/-- `update_investment(self, name, value)`: when `value <= balance`, add
`value` to the asset's holding slot and subtract it from the balance;
otherwise raise `ValueError`. A missing name raises a `KeyError` before
any mutation. -/
def update_investment (name : String) (value : ℚ)
    (s : Simulate_Portfolio) : PyResult Simulate_Portfolio :=
  if value ≤ s.balance then
    match alookup name s.investments_states with
    | none => .exn s
    | some pv =>
      .ok { s with
        investments_states :=
          dictInsert name (pv.1, pv.2 + value) s.investments_states
        balance := s.balance - value }
  else
    .exn s

/-- `get_portfolio_net(self)`: start from the balance and add the holding
slot of every asset state, in order. -/
def get_portfolio_net (s : Simulate_Portfolio) : ℚ :=
  s.investments_states.foldl (fun net kv => net + kv.2.2) s.balance

/-- `calc_profit(self)`. -/
def calc_profit (s : Simulate_Portfolio) : ℚ :=
  get_portfolio_net s - s.init_balane

/-- `return_state(self, name)`: `(price, holding, balance)` for one asset. -/
def return_state (name : String) (s : Simulate_Portfolio) :
    Option (ℚ × ℚ × ℚ) :=
  match alookup name s.investments_states with
  | none => none
  | some pv => some (pv.1, pv.2, s.balance)

/-- `reset_to_start(self)`: empty all four asset maps and restore the
clock, timestep counter and balance from the `__init__` snapshots. -/
def reset_to_start (s : Simulate_Portfolio) : Simulate_Portfolio :=
  { s with
    investments_timesteps := []
    investments := []
    investments_future_steps := []
    investments_states := []
    datetime := s.init_date
    timestep := 0
    balance := s.init_balane }

end Simulate_Portfolio

/-- Sum of the holding slots of the asset-state map. -/
def sumHoldings (l : List (String × (ℚ × ℚ))) : ℚ :=
  (l.map (fun kv => kv.2.2)).sum

/-- State carried by a `PyResult`, whether returned or left behind by a
raise. -/
def PyResult.state {σ : Type} : PyResult σ → σ
  | .ok s => s
  | .exn s => s

/-- The forward search as section 7 of the spec describes it: the same
advancing lookup but capped at 1000 attempts, `none` standing for a raised
`NoObservationFound`. Stated from the spec words, to compare against the
source's `findObs`. -/
def findObsCapped (df : List (Nat × ℚ)) (dtime : Nat) : Option (ℚ × Nat) :=
  Simulate_Portfolio.findObs df 1000 dtime

/-- One observable operation on a live simulator instance. A Python call
that raises still leaves the mutated object behind, so both outcomes are
transitions. -/
inductive SimStep (P : PriceProvider) :
    Simulate_Portfolio → Simulate_Portfolio → Prop where
  | add_ok (name : String) (s s' : Simulate_Portfolio) :
      Simulate_Portfolio.add_investment P name s = .ok s' → SimStep P s s'
  | add_exn (name : String) (s s' : Simulate_Portfolio) :
      Simulate_Portfolio.add_investment P name s = .exn s' → SimStep P s s'
  | step_ok (fuel : Nat) (s s' : Simulate_Portfolio) :
      Simulate_Portfolio.next_timestep fuel s = .ok s' → SimStep P s s'
  | step_exn (fuel : Nat) (s s' : Simulate_Portfolio) :
      Simulate_Portfolio.next_timestep fuel s = .exn s' → SimStep P s s'
  | upd_ok (name : String) (v : ℚ) (s s' : Simulate_Portfolio) :
      Simulate_Portfolio.update_investment name v s = .ok s' → SimStep P s s'
  | upd_exn (name : String) (v : ℚ) (s s' : Simulate_Portfolio) :
      Simulate_Portfolio.update_investment name v s = .exn s' → SimStep P s s'

/-- States reachable from `s0` by any sequence of operations. -/
def SimReachable (P : PriceProvider) (s0 s : Simulate_Portfolio) : Prop :=
  Relation.ReflTransGen (SimStep P) s0 s

/-- A provider whose lookback window is always empty. -/
def noDataProvider : PriceProvider :=
  { lookback := fun _ _ => none, forward := fun _ _ => [] }

/-- A provider that always seeds at close 100 and serves one forward
observation at close 110 the next day. -/
def seedProvider : PriceProvider :=
  { lookback := fun _ _ => some 100, forward := fun _ d => [(d + 1, 110)] }

/-- A freshly constructed simulator: start day 0, balance 1000. -/
def exS0 : Simulate_Portfolio := Simulate_Portfolio.init 0 1000

/-- One tracked asset "X" at price 100 holding 50, balance 600. -/
def exS1 : Simulate_Portfolio :=
  { investments_timesteps := [("X", [100])]
    investments_future_steps := [("X", [(1, 110)])]
    investments := ["X"]
    investments_states := [("X", (100, 50))]
    datetime := 0
    init_date := 0
    timestep := 0
    balance := 600
    init_balane := 1000 }

/-- `exS1` after one `next_timestep`: clock snapped to day 1, price 110,
holding 55. -/
def exS1' : Simulate_Portfolio :=
  { investments_timesteps := [("X", [100, 110])]
    investments_future_steps := [("X", [(1, 110)])]
    investments := ["X"]
    investments_states := [("X", (110, 55))]
    datetime := 1
    init_date := 0
    timestep := 0
    balance := 600
    init_balane := 1000 }

/-- One tracked asset "X" at price 100 holding 0, balance 1000. -/
def exS2 : Simulate_Portfolio :=
  { investments_timesteps := [("X", [100])]
    investments_future_steps := [("X", [])]
    investments := ["X"]
    investments_states := [("X", (100, 0))]
    datetime := 0
    init_date := 0
    timestep := 0
    balance := 1000
    init_balane := 1000 }

/-- `exS2` after `update_investment("X", -100)`: the negative value is
added to the holding and credited to the balance. -/
def exS2u : Simulate_Portfolio :=
  { exS2 with
    investments_states := [("X", (100, -100))]
    balance := 1100 }

/-- One tracked asset "X" at price 100 holding 400, balance 600. -/
def exS3 : Simulate_Portfolio :=
  { investments_timesteps := [("X", [100])]
    investments_future_steps := [("X", [(1, 110)])]
    investments := ["X"]
    investments_states := [("X", (100, 400))]
    datetime := 0
    init_date := 0
    timestep := 0
    balance := 600
    init_balane := 1000 }

/-- A series whose single observation sits 1500 days past day 0. -/
def df1500 : List (Nat × ℚ) := [(1500, 7)]

/-! ## Helper lemmas about the dictionary model -/

theorem alookup_dictInsert_self {α : Type} (k : String) (v : α)
    (l : List (String × α)) : alookup k (dictInsert k v l) = some v := by
  induction l with
  | nil => simp [dictInsert, alookup]
  | cons hd tl ih =>
    cases hd with
    | mk k' v' =>
      by_cases h : k' = k
      · simp [dictInsert, h, alookup]
      · simp only [dictInsert, if_neg h]
        simp only [alookup, if_neg h]
        exact ih

theorem alookup_dictInsert_ne {α : Type} (k k' : String) (v : α)
    (l : List (String × α)) (h : k' ≠ k) :
    alookup k (dictInsert k' v l) = alookup k l := by
  induction l with
  | nil => simp [dictInsert, alookup, h]
  | cons hd tl ih =>
    cases hd with
    | mk a b =>
      by_cases ha : a = k'
      · subst ha
        simp [dictInsert, alookup, h]
      · simp only [dictInsert, alookup, if_neg ha]
        by_cases hak : a = k
        · simp [alookup, hak]
        · simp [alookup, hak, ih]

theorem sumHoldings_dictInsert (k : String) (p h q h' : ℚ)
    (l : List (String × (ℚ × ℚ))) (hl : alookup k l = some (p, h)) :
    sumHoldings (dictInsert k (q, h') l) = sumHoldings l - h + h' := by
  induction l with
  | nil => simp [alookup] at hl
  | cons hd tl ih =>
    cases hd with
    | mk a b =>
      by_cases ha : a = k
      · subst ha
        have hb : b = (p, h) := by simpa [alookup] using hl
        simp only [dictInsert, if_pos rfl, if_true, sumHoldings, List.map_cons,
          List.sum_cons, hb]
        ring
      · simp only [alookup, if_neg ha] at hl
        simp only [dictInsert, if_neg ha]
        simp only [sumHoldings, List.map_cons, List.sum_cons] at ih ⊢
        rw [ih hl]
        ring

theorem foldl_add_snd (l : List (String × (ℚ × ℚ))) (b : ℚ) :
    l.foldl (fun net kv => net + kv.2.2) b = b + sumHoldings l := by
  induction l generalizing b with
  | nil => simp [sumHoldings]
  | cons hd tl ih =>
    simp only [List.foldl_cons, ih, sumHoldings, List.map_cons, List.sum_cons]
    ring

theorem portfolio_net_eq (s : Simulate_Portfolio) :
    Simulate_Portfolio.get_portfolio_net s =
      s.balance + sumHoldings s.investments_states := by
  simp [Simulate_Portfolio.get_portfolio_net, foldl_add_snd]

/-! ## Helper lemmas about the forward search -/

/-- A successful search result is a genuine series entry, lies at or after
the start day, is the earliest such entry, and was reached within `fuel`
one-day advances. -/
theorem findObs_spec (df : List (Nat × ℚ)) (fuel t : Nat) (c : ℚ) (d : Nat)
    (h : Simulate_Portfolio.findObs df fuel t = some (c, d)) :
    alookup d df = some c ∧ t ≤ d ∧ d < t + fuel ∧
      ∀ e, t ≤ e → e < d → alookup e df = none := by
  induction fuel generalizing t with
  | zero => simp [Simulate_Portfolio.findObs] at h
  | succ n ih =>
    simp only [Simulate_Portfolio.findObs] at h
    cases hl : alookup t df with
    | some v =>
      rw [hl] at h
      simp only [Option.some.injEq, Prod.mk.injEq] at h
      obtain ⟨hc, hd⟩ := h
      subst hd
      refine ⟨by rw [hl, hc], le_refl _, by omega, ?_⟩
      intro e he1 he2
      omega
    | none =>
      rw [hl] at h
      obtain ⟨h1, h2, h3, h4⟩ := ih (t + 1) h
      refine ⟨h1, by omega, by omega, ?_⟩
      intro e he1 he2
      rcases Nat.eq_or_lt_of_le he1 with he | he
      · rw [he] at hl
        exact hl
      · exact h4 e he he2

/-- When the series has no entry at or after the start day, the search
returns `none` at every fuel level: the source loop never terminates. -/
theorem findObs_none (df : List (Nat × ℚ)) (t : Nat)
    (h : ∀ e, t ≤ e → alookup e df = none) :
    ∀ fuel, Simulate_Portfolio.findObs df fuel t = none := by
  intro fuel
  induction fuel generalizing t with
  | zero => simp [Simulate_Portfolio.findObs]
  | succ n ih =>
    simp only [Simulate_Portfolio.findObs]
    rw [h t (le_refl t)]
    exact ih (t + 1) (fun e he => h e (by omega))

/-! ## Helper lemmas about the `next_timestep` loop -/

/-- Fields the asset loop never touches: balance, the registered-name map,
the cached forward series, and the `__init__` snapshots. -/
theorem nextGo_frame (fuel : Nat) (names : List String)
    (s s' : Simulate_Portfolio)
    (h : Simulate_Portfolio.nextGo fuel names s = .ok s') :
    s'.balance = s.balance ∧ s'.investments = s.investments ∧
      s'.investments_future_steps = s.investments_future_steps ∧
      s'.init_balane = s.init_balane ∧ s'.init_date = s.init_date := by
  induction names generalizing s with
  | nil =>
    simp only [Simulate_Portfolio.nextGo, PyResult.ok.injEq] at h
    subst h
    exact ⟨rfl, rfl, rfl, rfl, rfl⟩
  | cons name rest ih =>
    simp only [Simulate_Portfolio.nextGo] at h
    cases h1 : alookup name s.investments_states with
    | none => simp only [h1] at h; cases h
    | some prev =>
      simp only [h1] at h
      cases h2 : alookup name s.investments_future_steps with
      | none => simp only [h2] at h; cases h
      | some df =>
        simp only [h2] at h
        cases h3 : Simulate_Portfolio.findObs df fuel s.datetime with
        | none => simp only [h3] at h; cases h
        | some tsdate =>
          obtain ⟨ts, date⟩ := tsdate
          simp only [h3] at h
          cases h4 : alookup name s.investments_timesteps with
          | none => simp only [h4] at h; cases h
          | some lst =>
            simp only [h4] at h
            have hr := ih _ h
            exact hr

/-- An asset not in the processed list keeps its state entry. -/
theorem nextGo_skip (fuel : Nat) (names : List String)
    (s s' : Simulate_Portfolio) (name : String)
    (hnot : name ∉ names)
    (h : Simulate_Portfolio.nextGo fuel names s = .ok s') :
    alookup name s'.investments_states = alookup name s.investments_states := by
  induction names generalizing s with
  | nil =>
    simp only [Simulate_Portfolio.nextGo, PyResult.ok.injEq] at h
    subst h
    rfl
  | cons hd rest ih =>
    have hne : hd ≠ name := fun he => hnot (he ▸ List.mem_cons_self hd rest)
    have hnr : name ∉ rest := fun hm => hnot (List.mem_cons_of_mem hd hm)
    simp only [Simulate_Portfolio.nextGo] at h
    cases h1 : alookup hd s.investments_states with
    | none => simp only [h1] at h; cases h
    | some prev =>
      simp only [h1] at h
      cases h2 : alookup hd s.investments_future_steps with
      | none => simp only [h2] at h; cases h
      | some df =>
        simp only [h2] at h
        cases h3 : Simulate_Portfolio.findObs df fuel s.datetime with
        | none => simp only [h3] at h; cases h
        | some tsdate =>
          obtain ⟨ts, date⟩ := tsdate
          simp only [h3] at h
          cases h4 : alookup hd s.investments_timesteps with
          | none => simp only [h4] at h; cases h
          | some lst =>
            simp only [h4] at h
            rw [ih _ hnr h]
            exact alookup_dictInsert_ne name hd _ _ hne

/-- An asset in the processed list (names distinct, as in a Python dict)
gets rebased: its new state entry is
`(close * old_price / old_price, close * old_holding / old_price)` for a
close `c` actually present in its cached forward series. -/
theorem nextGo_hit (fuel : Nat) (names : List String)
    (s s' : Simulate_Portfolio) (name : String) (p h : ℚ)
    (hnd : names.Nodup) (hmem : name ∈ names)
    (hst : alookup name s.investments_states = some (p, h))
    (hok : Simulate_Portfolio.nextGo fuel names s = .ok s') :
    ∃ df c d, alookup name s.investments_future_steps = some df ∧
      alookup d df = some c ∧
      alookup name s'.investments_states =
        some (c * p / p, c * h / p) := by
  induction names generalizing s with
  | nil => cases hmem
  | cons hd rest ih =>
    obtain ⟨hhd, hndr⟩ := List.nodup_cons.mp hnd
    simp only [Simulate_Portfolio.nextGo] at hok
    by_cases heq : hd = name
    · subst heq
      simp only [hst] at hok
      cases h2 : alookup hd s.investments_future_steps with
      | none => simp only [h2] at hok; cases hok
      | some df =>
        simp only [h2] at hok
        cases h3 : Simulate_Portfolio.findObs df fuel s.datetime with
        | none => simp only [h3] at hok; cases hok
        | some tsdate =>
          obtain ⟨ts, date⟩ := tsdate
          simp only [h3] at hok
          cases h4 : alookup hd s.investments_timesteps with
          | none => simp only [h4] at hok; cases hok
          | some lst =>
            simp only [h4] at hok
            refine ⟨df, ts, date, ?_, (findObs_spec df fuel s.datetime ts date h3).1, ?_⟩
            · rfl
            rw [nextGo_skip fuel rest _ s' hd hhd hok]
            exact alookup_dictInsert_self hd _ _
    · have hmr : name ∈ rest := by
        cases List.mem_cons.mp hmem with
        | inl he =>
          first
          | exact absurd he heq
          | exact absurd he.symm heq
        | inr hm => exact hm
      cases h1 : alookup hd s.investments_states with
      | none => simp only [h1] at hok; cases hok
      | some prev =>
        simp only [h1] at hok
        cases h2 : alookup hd s.investments_future_steps with
        | none => simp only [h2] at hok; cases hok
        | some df =>
          simp only [h2] at hok
          cases h3 : Simulate_Portfolio.findObs df fuel s.datetime with
          | none => simp only [h3] at hok; cases hok
          | some tsdate =>
            obtain ⟨ts, date⟩ := tsdate
            simp only [h3] at hok
            cases h4 : alookup hd s.investments_timesteps with
            | none => simp only [h4] at hok; cases hok
            | some lst =>
              simp only [h4] at hok
              have hst3 : alookup name
                  (dictInsert hd (ts * prev.1 / prev.1, ts * prev.2 / prev.1)
                    s.investments_states) = some (p, h) := by
                rw [alookup_dictInsert_ne name hd _ _ heq]
                exact hst
              have hr := ih _ hndr hmr hst3 hok
              exact hr

/-! ## Further helper lemmas -/

theorem mem_insertName_self (k : String) (l : List String) :
    k ∈ insertName k l := by
  unfold insertName
  by_cases h : k ∈ l
  · rw [if_pos h]; exact h
  · rw [if_neg h]; exact List.mem_append_right l (List.mem_singleton.mpr rfl)

theorem update_investment_ok_eq (name : String) (v : ℚ)
    (s : Simulate_Portfolio) (p h : ℚ)
    (hv : v ≤ s.balance)
    (hst : alookup name s.investments_states = some (p, h)) :
    Simulate_Portfolio.update_investment name v s =
      .ok { s with
        investments_states :=
          dictInsert name (p, h + v) s.investments_states
        balance := s.balance - v } := by
  simp [Simulate_Portfolio.update_investment, hv, hst]

theorem findObs_singleton (d : Nat) (c : ℚ) (fuel t : Nat) :
    Simulate_Portfolio.findObs [(d, c)] fuel t =
      if t ≤ d ∧ d < t + fuel then some (c, d) else none := by
  induction fuel generalizing t with
  | zero =>
    rw [if_neg (by omega)]
    rfl
  | succ n ih =>
    simp only [Simulate_Portfolio.findObs]
    by_cases h : d = t
    · subst h
      have : alookup d [(d, c)] = some c := by simp [alookup]
      rw [this, if_pos ⟨le_refl d, by omega⟩]
    · have hn : alookup t [(d, c)] = none := by simp [alookup, h]
      rw [hn, ih (t + 1)]
      by_cases h2 : t + 1 ≤ d ∧ d < t + 1 + n
      · rw [if_pos h2, if_pos ⟨by omega, by omega⟩]
      · rw [if_neg h2, if_neg (by omega)]

/-- Iterated `next_timestep` never changes the balance nor the set of
registered names. -/
theorem next_steps_frame (fuel n : Nat) (s s' : Simulate_Portfolio)
    (hok : Simulate_Portfolio.next_steps fuel n s = .ok s') :
    s'.balance = s.balance ∧ s'.investments = s.investments := by
  induction n generalizing s with
  | zero =>
    simp only [Simulate_Portfolio.next_steps, PyResult.ok.injEq] at hok
    subst hok
    exact ⟨rfl, rfl⟩
  | succ m ih =>
    simp only [Simulate_Portfolio.next_steps] at hok
    cases hs : Simulate_Portfolio.next_timestep fuel s with
    | exn e => simp only [hs] at hok; cases hok
    | ok s1 =>
      simp only [hs] at hok
      have h1 := nextGo_frame fuel s.investments _ s1 hs
      have h2 := ih s1 hok
      exact ⟨h2.1.trans h1.1, h2.2.trans h1.2.1⟩

/-- An asset holding 0 still holds 0 after any number of successful
`next_timestep` calls. -/
theorem next_steps_zero_holding (fuel n : Nat) :
    ∀ (s s' : Simulate_Portfolio) (name : String) (p : ℚ),
    s.investments.Nodup → name ∈ s.investments →
    alookup name s.investments_states = some (p, 0) →
    Simulate_Portfolio.next_steps fuel n s = .ok s' →
    ∃ p', alookup name s'.investments_states = some (p', 0) := by
  induction n with
  | zero =>
    intro s s' name p hnd hmem hst hok
    simp only [Simulate_Portfolio.next_steps, PyResult.ok.injEq] at hok
    subst hok
    exact ⟨p, hst⟩
  | succ m ih =>
    intro s s' name p hnd hmem hst hok
    simp only [Simulate_Portfolio.next_steps] at hok
    cases hs : Simulate_Portfolio.next_timestep fuel s with
    | exn e => simp only [hs] at hok; cases hok
    | ok s1 =>
      simp only [hs] at hok
      obtain ⟨df, c, d, _, _, h3⟩ :=
        nextGo_hit fuel s.investments
          { s with datetime := s.datetime + 1 } s1 name p 0 hnd hmem hst hs
      have h3' : alookup name s1.investments_states =
          some (c * p / p, 0) := by
        rw [h3, mul_zero, zero_div]
      have hfr := nextGo_frame fuel s.investments _ s1 hs
      exact ih s1 s' name (c * p / p) (by rw [hfr.2.1]; exact hnd)
        (by rw [hfr.2.1]; exact hmem) h3' hok

/-! ## The `__init__` snapshots survive every operation -/

theorem add_investment_result_init (P : PriceProvider) (name : String)
    (s : Simulate_Portfolio) (r : PyResult Simulate_Portfolio)
    (hr : Simulate_Portfolio.add_investment P name s = r) :
    r.state.init_balane = s.init_balane ∧ r.state.init_date = s.init_date := by
  subst hr
  cases h : P.lookback name s.datetime <;>
    simp [Simulate_Portfolio.add_investment, h, PyResult.state]

theorem update_investment_result_init (name : String) (v : ℚ)
    (s : Simulate_Portfolio) (r : PyResult Simulate_Portfolio)
    (hr : Simulate_Portfolio.update_investment name v s = r) :
    r.state.init_balane = s.init_balane ∧ r.state.init_date = s.init_date := by
  subst hr
  by_cases hv : v ≤ s.balance
  · cases h : alookup name s.investments_states <;>
      simp [Simulate_Portfolio.update_investment, hv, h, PyResult.state]
  · simp [Simulate_Portfolio.update_investment, hv, PyResult.state]

theorem nextGo_result_init (fuel : Nat) (names : List String) :
    ∀ (s : Simulate_Portfolio) (r : PyResult Simulate_Portfolio),
    Simulate_Portfolio.nextGo fuel names s = r →
    r.state.init_balane = s.init_balane ∧ r.state.init_date = s.init_date := by
  induction names with
  | nil =>
    intro s r hr
    subst hr
    exact ⟨rfl, rfl⟩
  | cons name rest ih =>
    intro s r hr
    simp only [Simulate_Portfolio.nextGo] at hr
    cases h1 : alookup name s.investments_states with
    | none => simp only [h1] at hr; subst hr; exact ⟨rfl, rfl⟩
    | some prev =>
      simp only [h1] at hr
      cases h2 : alookup name s.investments_future_steps with
      | none => simp only [h2] at hr; subst hr; exact ⟨rfl, rfl⟩
      | some df =>
        simp only [h2] at hr
        cases h3 : Simulate_Portfolio.findObs df fuel s.datetime with
        | none => simp only [h3] at hr; subst hr; exact ⟨rfl, rfl⟩
        | some tsdate =>
          obtain ⟨ts, date⟩ := tsdate
          simp only [h3] at hr
          cases h4 : alookup name s.investments_timesteps with
          | none => simp only [h4] at hr; subst hr; exact ⟨rfl, rfl⟩
          | some lst =>
            simp only [h4] at hr
            have hrr := ih _ r hr
            exact hrr

theorem simStep_init (P : PriceProvider) (s s' : Simulate_Portfolio)
    (h : SimStep P s s') :
    s'.init_balane = s.init_balane ∧ s'.init_date = s.init_date := by
  cases h with
  | add_ok name s s' heq => exact add_investment_result_init P name s _ heq
  | add_exn name s s' heq => exact add_investment_result_init P name s _ heq
  | step_ok fuel s s' heq => exact nextGo_result_init fuel s.investments _ _ heq
  | step_exn fuel s s' heq => exact nextGo_result_init fuel s.investments _ _ heq
  | upd_ok name v s s' heq => exact update_investment_result_init name v s _ heq
  | upd_exn name v s s' heq => exact update_investment_result_init name v s _ heq

theorem simReachable_init (P : PriceProvider) (s0 s : Simulate_Portfolio)
    (h : SimReachable P s0 s) :
    s.init_balane = s0.init_balane ∧ s.init_date = s0.init_date := by
  induction h with
  | refl => exact ⟨rfl, rfl⟩
  | tail hab hbc ih =>
    have h2 := simStep_init P _ _ hbc
    exact ⟨h2.1.trans ih.1, h2.2.trans ih.2⟩

/-- Evaluating one `next_timestep` on the concrete state `exS1`. -/
theorem exS1_step : Simulate_Portfolio.next_timestep 5 exS1 = .ok exS1' := by
  show PyResult.ok
      { investments_timesteps := [("X", [(100:ℚ)] ++ [(110:ℚ)])]
        investments_future_steps := [("X", [(1, (110:ℚ))])]
        investments := ["X"]
        investments_states :=
          [("X", ((110:ℚ) * ((100:ℚ), (50:ℚ)).1 / ((100:ℚ), (50:ℚ)).1,
                  (110:ℚ) * ((100:ℚ), (50:ℚ)).2 / ((100:ℚ), (50:ℚ)).1))]
        datetime := 1
        init_date := 0
        timestep := 0
        balance := 600
        init_balane := 1000 } = PyResult.ok exS1'
  rw [exS1']
  norm_num

/-! ## Claim theorems -/

/-- C1: for every tracked asset (registered names distinct, as in a Python
dict) whose old reference price `p` is positive, a successful
`next_timestep` rebases its state to `(c, c * (h / p))` where `c` is an
observed close actually present in that asset's cached forward series; in
particular a zero holding stays zero, and a nonzero holding scales exactly
by the price return `c / p`. -/
theorem next_timestep_rebases_asset (fuel : Nat)
    (s s' : Simulate_Portfolio) (name : String) (p h : ℚ)
    (hnd : s.investments.Nodup) (hmem : name ∈ s.investments)
    (hst : alookup name s.investments_states = some (p, h))
    (hp : 0 < p)
    (hok : Simulate_Portfolio.next_timestep fuel s = .ok s') :
    ∃ df c d, alookup name s.investments_future_steps = some df ∧
      alookup d df = some c ∧
      alookup name s'.investments_states = some (c, c * (h / p)) ∧
      (h = 0 → alookup name s'.investments_states = some (c, 0)) := by
  obtain ⟨df, c, d, h1, h2, h3⟩ :=
    nextGo_hit fuel s.investments
      { s with datetime := s.datetime + 1 } s' name p h hnd hmem hst hok
  have hpne : p ≠ 0 := ne_of_gt hp
  have hval : alookup name s'.investments_states = some (c, c * (h / p)) := by
    rw [h3, mul_div_cancel_right₀ c hpne, mul_div_assoc]
  refine ⟨df, c, d, h1, h2, hval, ?_⟩
  intro h0
  rw [hval, h0, zero_div, mul_zero]

/-- Witness for C1 at `exS1` (price 100, holding 50, next close 110). -/
theorem next_timestep_rebases_asset_witness :
    ∃ df c d, alookup "X" exS1.investments_future_steps = some df ∧
      alookup d df = some c ∧
      alookup "X" exS1'.investments_states = some (c, c * (50 / 100)) ∧
      ((50 : ℚ) = 0 → alookup "X" exS1'.investments_states = some (c, 0)) :=
  next_timestep_rebases_asset 5 exS1 exS1' "X" 100 50 (by decide) (by decide)
    (by decide) (by norm_num) exS1_step

/-- Evaluating `update_investment("X", -100)` on the concrete state `exS2`. -/
theorem exS2_upd :
    Simulate_Portfolio.update_investment "X" (-100) exS2 = .ok exS2u := by
  rw [update_investment_ok_eq "X" (-100) exS2 100 0 (by norm_num [exS2])
    (by decide)]
  rw [exS2u]
  norm_num [exS2, dictInsert]

/-- C2 counterexample: the claimed clamp semantics fails on the code. At
`exS2` (balance 1000, holding 0), a negative target changes the state
(claim: same state as target 0), and a target above the available total
raises (claim: clamps to the available total). -/
theorem update_investment_clamp_counterexample :
    Simulate_Portfolio.update_investment "X" (-100) exS2 ≠
      Simulate_Portfolio.update_investment "X" 0 exS2 ∧
    (∃ e, Simulate_Portfolio.update_investment "X" 2000 exS2 = .exn e) := by
  constructor
  · rw [update_investment_ok_eq "X" (-100) exS2 100 0 (by norm_num [exS2])
      (by decide),
      update_investment_ok_eq "X" 0 exS2 100 0 (by norm_num [exS2])
      (by decide)]
    intro hcontra
    have hb : exS2.balance - (-100) = exS2.balance - 0 :=
      congrArg (fun r => (PyResult.state r).balance) hcontra
    norm_num [exS2] at hb
  · refine ⟨exS2, ?_⟩
    norm_num [Simulate_Portfolio.update_investment, exS2]

/-- C2 (amended): `update_investment(name, v)` does not clamp: a
successful call requires `v ≤ balance` and then adds `v` to the holding
(negative `v` included) and subtracts `v` from the balance. -/
theorem update_investment_adds_value (s s' : Simulate_Portfolio)
    (name : String) (v p h : ℚ)
    (hst : alookup name s.investments_states = some (p, h))
    (hok : Simulate_Portfolio.update_investment name v s = .ok s') :
    v ≤ s.balance ∧
    alookup name s'.investments_states = some (p, h + v) ∧
    s'.balance = s.balance - v := by
  by_cases hv : v ≤ s.balance
  · rw [update_investment_ok_eq name v s p h hv hst] at hok
    injection hok with h1
    subst h1
    exact ⟨hv, alookup_dictInsert_self _ _ _, rfl⟩
  · simp only [Simulate_Portfolio.update_investment, if_neg hv] at hok
    cases hok

/-- Witness for the amended C2 at `exS2` with target value −100. -/
theorem update_investment_adds_value_witness :
    (-100 : ℚ) ≤ exS2.balance ∧
    alookup "X" exS2u.investments_states = some (100, 0 + -100) ∧
    exS2u.balance = exS2.balance - (-100) :=
  update_investment_adds_value exS2 exS2u "X" (-100) 100 0 (by decide) exS2_upd

/-- C3: an `update_investment` call that completes without raising leaves
`get_portfolio_net` unchanged — value only moves between the balance and
the named asset. -/
theorem update_preserves_portfolio_net (name : String) (v : ℚ)
    (s s' : Simulate_Portfolio)
    (hok : Simulate_Portfolio.update_investment name v s = .ok s') :
    Simulate_Portfolio.get_portfolio_net s' =
      Simulate_Portfolio.get_portfolio_net s := by
  by_cases hv : v ≤ s.balance
  · cases hst : alookup name s.investments_states with
    | none =>
      simp only [Simulate_Portfolio.update_investment, if_pos hv, hst] at hok
      cases hok
    | some pv =>
      have hst' : alookup name s.investments_states = some (pv.1, pv.2) := by
        rw [hst]
      rw [update_investment_ok_eq name v s pv.1 pv.2 hv hst'] at hok
      injection hok with h1
      subst h1
      rw [portfolio_net_eq, portfolio_net_eq]
      show (s.balance - v) +
          sumHoldings (dictInsert name (pv.1, pv.2 + v) s.investments_states) =
        s.balance + sumHoldings s.investments_states
      rw [sumHoldings_dictInsert name pv.1 pv.2 pv.1 (pv.2 + v) _ hst']
      ring
  · simp only [Simulate_Portfolio.update_investment, if_neg hv] at hok
    cases hok

/-- Witness for C3: the −100 update on `exS2` keeps the net at 1000. -/
theorem update_preserves_portfolio_net_witness :
    Simulate_Portfolio.get_portfolio_net exS2u =
      Simulate_Portfolio.get_portfolio_net exS2 :=
  update_preserves_portfolio_net "X" (-100) exS2 exS2u exS2_upd

/-- C9: with a registered name, `update_investment` raises exactly when
the value exceeds the balance (the current holding is not counted); every
value ≤ balance is accepted, negative values included, and is added to the
holding and subtracted from the balance. -/
theorem update_investment_raises_iff (s : Simulate_Portfolio)
    (name : String) (v p h : ℚ)
    (hst : alookup name s.investments_states = some (p, h)) :
    ((∃ e, Simulate_Portfolio.update_investment name v s = .exn e) ↔
      s.balance < v) ∧
    (v ≤ s.balance →
      Simulate_Portfolio.update_investment name v s =
        .ok { s with
          investments_states := dictInsert name (p, h + v) s.investments_states
          balance := s.balance - v }) := by
  constructor
  · constructor
    · rintro ⟨e, he⟩
      by_cases hv : v ≤ s.balance
      · rw [update_investment_ok_eq name v s p h hv hst] at he
        cases he
      · exact not_le.mp hv
    · intro hv
      refine ⟨s, ?_⟩
      simp only [Simulate_Portfolio.update_investment, if_neg (not_le.mpr hv)]
  · intro hv
    exact update_investment_ok_eq name v s p h hv hst

/-- Witness for C9 at `exS2` with the negative value −100. -/
theorem update_investment_raises_iff_witness :
    ((∃ e, Simulate_Portfolio.update_investment "X" (-100) exS2 = .exn e) ↔
      exS2.balance < -100) ∧
    ((-100 : ℚ) ≤ exS2.balance →
      Simulate_Portfolio.update_investment "X" (-100) exS2 =
        .ok { exS2 with
          investments_states :=
            dictInsert "X" (100, 0 + -100) exS2.investments_states
          balance := exS2.balance - -100 }) :=
  update_investment_raises_iff exS2 "X" (-100) 100 0 (by decide)

/-- One `next_steps` call of length 1 on `exS1`. -/
theorem exS1_steps1 : Simulate_Portfolio.next_steps 5 1 exS1 = .ok exS1' := by
  have h : Simulate_Portfolio.next_steps 5 1 exS1 =
      (match Simulate_Portfolio.next_timestep 5 exS1 with
        | .ok s1 => Simulate_Portfolio.next_steps 5 0 s1
        | .exn e => PyResult.exn e) := rfl
  rw [h]
  simp only [exS1_step]
  rfl

/-- C4: over any run of successful `next_timestep` calls (registered names
distinct) the balance never moves, so the change in `get_portfolio_net` is
exactly the total change of the holdings; an asset holding 0 contributes
zero change at every step, and over a single step an asset with a nonzero
reference price ends with its holding scaled by the price return `c / p`
for some located close `c`. -/
theorem next_steps_value_conservation (fuel n : Nat)
    (s s' : Simulate_Portfolio)
    (hnd : s.investments.Nodup)
    (hok : Simulate_Portfolio.next_steps fuel n s = .ok s') :
    s'.balance = s.balance ∧
    (Simulate_Portfolio.get_portfolio_net s' -
        Simulate_Portfolio.get_portfolio_net s =
      sumHoldings s'.investments_states - sumHoldings s.investments_states) ∧
    (∀ name p, name ∈ s.investments →
      alookup name s.investments_states = some (p, 0) →
      ∃ p', alookup name s'.investments_states = some (p', 0)) ∧
    (n = 1 → ∀ name p h, name ∈ s.investments →
      alookup name s.investments_states = some (p, h) → p ≠ 0 →
      ∃ c, alookup name s'.investments_states = some (c, c / p * h)) := by
  have hb := next_steps_frame fuel n s s' hok
  refine ⟨hb.1, ?_, ?_, ?_⟩
  · rw [portfolio_net_eq, portfolio_net_eq, hb.1]
    ring
  · intro name p hmem hst
    exact next_steps_zero_holding fuel n s s' name p hnd hmem hst hok
  · intro hn1
    subst hn1
    intro name p h hmem hst hp
    have hok' : (match Simulate_Portfolio.next_timestep fuel s with
        | .ok s1 => Simulate_Portfolio.next_steps fuel 0 s1
        | .exn e => PyResult.exn e) = .ok s' := hok
    cases hs : Simulate_Portfolio.next_timestep fuel s with
    | exn e => simp only [hs] at hok'; cases hok'
    | ok s1 =>
      simp only [hs] at hok'
      simp only [Simulate_Portfolio.next_steps] at hok'
      injection hok' with h12
      subst h12
      obtain ⟨df, c, d, _, _, h3⟩ :=
        nextGo_hit fuel s.investments
          { s with datetime := s.datetime + 1 } s1 name p h hnd hmem hst hs
      refine ⟨c, ?_⟩
      rw [h3, mul_div_cancel_right₀ c hp, div_mul_eq_mul_div]

/-- Witness for C4: the single step from `exS1` to `exS1'`. -/
theorem next_steps_value_conservation_witness :
    exS1'.balance = exS1.balance ∧
    (Simulate_Portfolio.get_portfolio_net exS1' -
        Simulate_Portfolio.get_portfolio_net exS1 =
      sumHoldings exS1'.investments_states -
        sumHoldings exS1.investments_states) ∧
    (∃ c, alookup "X" exS1'.investments_states =
      some (c, c / 100 * 50)) :=
  ⟨(next_steps_value_conservation 5 1 exS1 exS1' (by decide) exS1_steps1).1,
   (next_steps_value_conservation 5 1 exS1 exS1' (by decide) exS1_steps1).2.1,
   (next_steps_value_conservation 5 1 exS1 exS1' (by decide)
      exS1_steps1).2.2.2 rfl "X" 100 50 (by decide) (by decide)
     (by norm_num)⟩

/-- C5 counterexample: the source search has no 1000-attempt cap. On a
series whose only observation sits 1500 days ahead, the source loop
reaches it (1501 attempts), while the spec's capped search gives up. -/
theorem findObs_cap_counterexample :
    Simulate_Portfolio.findObs df1500 1501 0 = some (7, 1500) ∧
    findObsCapped df1500 0 = none := by
  constructor
  · rw [show df1500 = [(1500, 7)] from rfl, findObs_singleton]
    rw [if_pos ⟨by omega, by omega⟩]
  · rw [findObsCapped, show df1500 = [(1500, 7)] from rfl, findObs_singleton]
    rw [if_neg (by omega)]

/-- C5 (amended): the forward search advances one day per attempt with no
retry cap and never raises. When the series has no observation at or after
the start day the loop never terminates (`none` at every fuel level);
when it returns, the result is the earliest series entry at or after the
start day. -/
theorem findObs_unbounded_search (df : List (Nat × ℚ)) (t : Nat) :
    ((∀ e, t ≤ e → alookup e df = none) →
      ∀ fuel, Simulate_Portfolio.findObs df fuel t = none) ∧
    (∀ fuel c d, Simulate_Portfolio.findObs df fuel t = some (c, d) →
      alookup d df = some c ∧ t ≤ d ∧
        ∀ e, t ≤ e → e < d → alookup e df = none) :=
  ⟨findObs_none df t, fun fuel c d hf =>
    let hs := findObs_spec df fuel t c d hf
    ⟨hs.1, hs.2.1, hs.2.2.2⟩⟩

/-- Witness for the amended C5: on an empty series the search never
returns, even after 2000 attempts. -/
theorem findObs_unbounded_search_witness :
    Simulate_Portfolio.findObs [] 2000 0 = none :=
  (findObs_unbounded_search [] 0).1 (fun _ _ => rfl) 2000

/-- C6 counterexample: a failing `add_investment` is not atomic. With a
provider whose lookback window is empty, the call on a fresh simulator
raises but leaves the name registered in the ticker map, with no state
entry behind it. -/
theorem add_investment_partial_counterexample :
    Simulate_Portfolio.add_investment noDataProvider "X" exS0 =
      .exn { exS0 with investments := ["X"] } ∧
    "X" ∈ ({ exS0 with investments := ["X"] } :
      Simulate_Portfolio).investments ∧
    alookup "X" ({ exS0 with investments := ["X"] } :
      Simulate_Portfolio).investments_states = none := by
  refine ⟨rfl, by decide, rfl⟩

/-- C6 (amended): when the lookback window is empty, `add_investment`
raises after installing only the ticker registration — the seed price,
series cache and state entry are absent, but the name is left in the
`investments` map (partial registration). On success all four are
installed together. -/
theorem add_investment_partial_registration (P : PriceProvider)
    (name : String) (s : Simulate_Portfolio)
    (hf1 : alookup name s.investments_states = none)
    (hf2 : alookup name s.investments_timesteps = none)
    (hf3 : alookup name s.investments_future_steps = none) :
    (P.lookback name s.datetime = none →
      ∃ s1, Simulate_Portfolio.add_investment P name s = .exn s1 ∧
        name ∈ s1.investments ∧
        alookup name s1.investments_states = none ∧
        alookup name s1.investments_timesteps = none ∧
        alookup name s1.investments_future_steps = none ∧
        s1.balance = s.balance) ∧
    (∀ seed, P.lookback name s.datetime = some seed →
      ∃ s1, Simulate_Portfolio.add_investment P name s = .ok s1 ∧
        name ∈ s1.investments ∧
        alookup name s1.investments_states = some (seed, 0) ∧
        alookup name s1.investments_timesteps = some [seed] ∧
        alookup name s1.investments_future_steps =
          some (P.forward name s.datetime)) := by
  constructor
  · intro hnone
    refine ⟨{ s with investments := insertName name s.investments },
      ?_, mem_insertName_self name s.investments, hf1, hf2, hf3, rfl⟩
    simp only [Simulate_Portfolio.add_investment, hnone]
  · intro seed hseed
    refine ⟨{ s with
        investments := insertName name s.investments
        investments_timesteps :=
          dictInsert name [seed] s.investments_timesteps
        investments_future_steps :=
          dictInsert name (P.forward name s.datetime)
            s.investments_future_steps
        investments_states :=
          dictInsert name (seed, 0) s.investments_states },
      ?_, mem_insertName_self name s.investments,
      alookup_dictInsert_self name _ _,
      alookup_dictInsert_self name _ _,
      alookup_dictInsert_self name _ _⟩
    simp only [Simulate_Portfolio.add_investment, hseed]

/-- Witness for the amended C6: the empty-lookback provider on a fresh
simulator. -/
theorem add_investment_partial_registration_witness :
    ∃ s1, Simulate_Portfolio.add_investment noDataProvider "X" exS0 =
        .exn s1 ∧
      "X" ∈ s1.investments ∧
      alookup "X" s1.investments_states = none ∧
      alookup "X" s1.investments_timesteps = none ∧
      alookup "X" s1.investments_future_steps = none ∧
      s1.balance = exS0.balance :=
  (add_investment_partial_registration noDataProvider "X" exS0
    rfl rfl rfl).1 rfl

/-- C7: from a simulator constructed with start day `d` and balance `b`,
after any sequence of operations (successful or raising),
`reset_to_start` restores balance `b` and clock `d` and discards every
asset registration and cached series. -/
theorem reset_to_start_restores (P : PriceProvider) (d : Nat) (b : ℚ)
    (s : Simulate_Portfolio)
    (hr : SimReachable P (Simulate_Portfolio.init d b) s) :
    (Simulate_Portfolio.reset_to_start s).balance = b ∧
    (Simulate_Portfolio.reset_to_start s).datetime = d ∧
    (Simulate_Portfolio.reset_to_start s).investments = [] ∧
    (Simulate_Portfolio.reset_to_start s).investments_states = [] ∧
    (Simulate_Portfolio.reset_to_start s).investments_timesteps = [] ∧
    (Simulate_Portfolio.reset_to_start s).investments_future_steps = [] := by
  have hi := simReachable_init P (Simulate_Portfolio.init d b) s hr
  exact ⟨hi.1, hi.2, rfl, rfl, rfl, rfl⟩

/-- Witness for C7: a fresh simulator after one raising `add_investment`
(which still mutated the ticker map), then reset. -/
theorem reset_to_start_restores_witness :
    (Simulate_Portfolio.reset_to_start
        { exS0 with investments := ["X"] }).balance = 1000 ∧
    (Simulate_Portfolio.reset_to_start
        { exS0 with investments := ["X"] }).datetime = 0 ∧
    (Simulate_Portfolio.reset_to_start
        { exS0 with investments := ["X"] }).investments = [] ∧
    (Simulate_Portfolio.reset_to_start
        { exS0 with investments := ["X"] }).investments_states = [] ∧
    (Simulate_Portfolio.reset_to_start
        { exS0 with investments := ["X"] }).investments_timesteps = [] ∧
    (Simulate_Portfolio.reset_to_start
        { exS0 with investments := ["X"] }).investments_future_steps =
      [] :=
  reset_to_start_restores noDataProvider 0 1000
    { exS0 with investments := ["X"] }
    (Relation.ReflTransGen.single
      (SimStep.add_exn "X" (Simulate_Portfolio.init 0 1000)
        { exS0 with investments := ["X"] } rfl))

/-- C8: `get_portfolio_net` returns the balance plus the sum of all
holding slots (it is a pure function of the state), and `calc_profit`
returns exactly `get_portfolio_net` minus the initial balance. -/
theorem portfolio_net_and_profit (s : Simulate_Portfolio) :
    Simulate_Portfolio.get_portfolio_net s =
      s.balance + sumHoldings s.investments_states ∧
    Simulate_Portfolio.calc_profit s =
      Simulate_Portfolio.get_portfolio_net s - s.init_balane :=
  ⟨portfolio_net_eq s, rfl⟩

/-- C10: `add_investment` on an already-registered name with a nonempty
lookback silently replaces the asset's state with a freshly seeded one
holding 0, and `get_portfolio_net` drops by exactly the discarded
holding. -/
theorem add_investment_replaces_state (P : PriceProvider) (name : String)
    (s : Simulate_Portfolio) (p h seed : ℚ)
    (hst : alookup name s.investments_states = some (p, h))
    (hseed : P.lookback name s.datetime = some seed) :
    ∃ s', Simulate_Portfolio.add_investment P name s = .ok s' ∧
      alookup name s'.investments_states = some (seed, 0) ∧
      Simulate_Portfolio.get_portfolio_net s' =
        Simulate_Portfolio.get_portfolio_net s - h := by
  refine ⟨{ s with
      investments := insertName name s.investments
      investments_timesteps := dictInsert name [seed] s.investments_timesteps
      investments_future_steps :=
        dictInsert name (P.forward name s.datetime)
          s.investments_future_steps
      investments_states := dictInsert name (seed, 0) s.investments_states },
    ?_, alookup_dictInsert_self name _ _, ?_⟩
  · simp only [Simulate_Portfolio.add_investment, hseed]
  · rw [portfolio_net_eq, portfolio_net_eq]
    show s.balance +
        sumHoldings (dictInsert name (seed, 0) s.investments_states) =
      s.balance + sumHoldings s.investments_states - h
    rw [sumHoldings_dictInsert name p h seed 0 _ hst]
    ring

/-- Witness for C10: re-adding "X" on `exS3` (holding 400) drops the net
by 400. -/
theorem add_investment_replaces_state_witness :
    ∃ s', Simulate_Portfolio.add_investment seedProvider "X" exS3 =
        .ok s' ∧
      alookup "X" s'.investments_states = some (100, 0) ∧
      Simulate_Portfolio.get_portfolio_net s' =
        Simulate_Portfolio.get_portfolio_net exS3 - 400 :=
  add_investment_replaces_state seedProvider "X" exS3 100 400 100
    (by decide) rfl
